import Mathlib

/-!
Shallow embedding of the `gh-github-mcp-server` launcher (`main.go`) and
verification of its specification.  The launcher locates or downloads the
`github-mcp-server` helper binary, injects a GitHub token obtained from
`gh auth token`, and proxies a stdio session to the helper.

The embedding models:
  * string utilities mirroring Go's `strings` package (ASCII inputs);
  * a filesystem state (regular files with content and permissions, plus
    directories) supporting the operations the launcher performs
    (`os.Stat`-based existence checks, `os.MkdirAll`, `os.Create`,
    `os.Chmod`);
  * `findServerBinary` / `getExtensionDataDir` / `fileExists` / `binaryName`
    (the Binary Locator, main.go:126-175, 440-482);
  * the asset-selection heuristics of `getLatestReleaseAssetURL`
    (the Release Resolver, main.go:243-357);
  * `extractFromZip` / `extractFromTarGz` and the chmod step of
    `downloadServerBinary` (the Archive Extractor, main.go:220-238, 359-438);
  * `main`'s `stdio` control flow (the Session Launcher, main.go:25-84),
    with external collaborators (the `gh auth token` subprocess, the HTTP
    endpoint, the spawned helper) supplied as oracles and the externally
    visible actions recorded as an event trace.
-/

/-! ### String utilities (Go `strings` package, ASCII fragment) -/

/-- Whether `needle` is a prefix of `hay` (character lists). -/
def charPrefix : List Char → List Char → Bool
  | [], _ => true
  | _ :: _, [] => false
  | a :: as, b :: bs => a == b && charPrefix as bs

/-- Whether `needle` occurs contiguously inside `hay` (character lists). -/
def charSub (needle : List Char) : List Char → Bool
  | [] => charPrefix needle []
  | h :: t => charPrefix needle (h :: t) || charSub needle t

/-- Go `strings.Contains s sub`: `sub` occurs as a substring of `s`.
For the ASCII names handled here, byte-level and character-level
containment coincide. -/
def strContains (s sub : String) : Bool :=
  charSub sub.toList s.toList

/-- Go `strings.ToLower` (character-wise; agrees with it on ASCII). -/
def toLowerStr (s : String) : String :=
  String.mk (s.data.map Char.toLower)

/-- Go `strings.HasSuffix s suf`. -/
def strHasSuffix (s suf : String) : Bool :=
  charPrefix suf.toList.reverse s.toList.reverse

/-! ### Filesystem model -/

/-- A regular file: its byte content and its permission bits. -/
structure FileData where
  content : List Nat
  perm : Nat
deriving DecidableEq, Repr

/-- Filesystem state: an association list of regular files (later entries are
shadowed by earlier ones, as in `List.lookup`) and a list of directories. -/
structure FS where
  files : List (String × FileData)
  dirs : List String
deriving DecidableEq, Repr

/-- `os.Create`: create or truncate the file at `p` with the given content
(permission `0o666` before any umask, as Go's `os.Create` uses). -/
def FS.writeFile (fs : FS) (p : String) (c : List Nat) : FS :=
  { fs with files := (p, ⟨c, 0o666⟩) :: fs.files }

/-- `os.Chmod`: set the permission bits of the file at `p`, if it exists. -/
def FS.chmod (fs : FS) (p : String) (m : Nat) : FS :=
  match fs.files.lookup p with
  | some d => { fs with files := (p, ⟨d.content, m⟩) :: fs.files }
  | none => fs

/-- `os.MkdirAll`: ensure the directory `d` exists. -/
def FS.mkdirAll (fs : FS) (d : String) : FS :=
  if fs.dirs.contains d then fs else { fs with dirs := d :: fs.dirs }

/-- `fileExists` (main.go:476-482): `os.Stat` succeeds and the path is not a
directory.  In the model a path names a regular file iff it is in `files`. -/
def fileExists (fs : FS) (p : String) : Bool :=
  (fs.files.lookup p).isSome

/-- `filepath.Join` for two components (Unix separator; inputs are assumed
already clean, which holds for every path the launcher builds). -/
def joinPath (a b : String) : String :=
  a ++ "/" ++ b

/-- `filepath.Dir` (simplified to clean Unix paths): everything before the
last separator, `"."` when there is none. -/
def filepathDir (p : String) : String :=
  let parts := p.splitOn "/"
  if parts.length ≤ 1 then "." else String.intercalate "/" parts.dropLast

/-! ### Binary Locator (main.go:126-175, 440-482) -/

/-- The environment and process-level inputs `findServerBinary` consults.
Go's `os.Getenv` returns `""` for unset variables, so environment variables
are plain strings with `""` meaning unset; `os.Executable` and
`exec.LookPath` can fail, hence `Option`. -/
structure LocatorEnv where
  /-- `GITHUB_MCP_SERVER_PATH` -/
  customPath : String
  /-- `GITHUB_MCP_SERVER_DIR` -/
  workspaceDir : String
  /-- `XDG_DATA_HOME` -/
  xdgDataHome : String
  /-- `os.UserHomeDir()` result (`none` on error) -/
  homeDir : Option String
  /-- `os.Executable()` result (`none` on error) -/
  execPath : Option String
  /-- `exec.LookPath "github-mcp-server"` result (`none` on miss) -/
  lookPath : Option String
  /-- `runtime.GOOS` -/
  goos : String
deriving DecidableEq, Repr

/-- `binaryName` (main.go:466-473). -/
def binaryName (goos : String) : String :=
  let baseName := "github-mcp-server"
  if goos == "windows" then baseName ++ ".exe" else baseName

/-- `getExtensionDataDir` (main.go:440-464).  Returns the data directory and
the filesystem after the trailing `os.MkdirAll` (whose error is discarded);
the `os.UserHomeDir` error branch returns `"."` without creating anything. -/
def getExtensionDataDir (e : LocatorEnv) (fs : FS) : String × FS :=
  if e.xdgDataHome != "" then
    let dataDir := joinPath e.xdgDataHome "gh-github-mcp-server"
    (dataDir, fs.mkdirAll dataDir)
  else
    match e.homeDir with
    | none => (".", fs)
    | some homeDir =>
      let dataDir :=
        if e.goos == "windows" then
          joinPath (joinPath (joinPath homeDir "AppData") "Local") "gh-github-mcp-server"
        else if e.goos == "darwin" then
          joinPath (joinPath (joinPath homeDir "Library") "Application Support") "gh-github-mcp-server"
        else
          joinPath (joinPath (joinPath homeDir ".local") "share") "gh-github-mcp-server"
      (dataDir, fs.mkdirAll dataDir)

/-- The final `exec.LookPath` step of `findServerBinary` (main.go:168-174). -/
def lookPathStep (e : LocatorEnv) (fs : FS) : String × FS :=
  match e.lookPath with
  | some p => (p, fs)
  | none => ("", fs)

/-- `findServerBinary` (main.go:126-175).  Returns the located path (`""`
meaning not found) together with the filesystem state after the call (only
`getExtensionDataDir`'s `MkdirAll` can change it). -/
def findServerBinary (e : LocatorEnv) (fs : FS) : String × FS :=
  if e.customPath != "" && fileExists fs e.customPath then
    (e.customPath, fs)
  else if e.workspaceDir != "" &&
      fileExists fs (joinPath (joinPath e.workspaceDir "bin") (binaryName e.goos)) then
    (joinPath (joinPath e.workspaceDir "bin") (binaryName e.goos), fs)
  else
    let gd := getExtensionDataDir e fs
    let binPath := joinPath (joinPath gd.1 "bin") (binaryName e.goos)
    if fileExists gd.2 binPath then
      (binPath, gd.2)
    else
      match e.execPath with
      | some execPath =>
        let dir := filepathDir execPath
        if fileExists gd.2 (joinPath (joinPath dir "bin") (binaryName e.goos)) then
          (joinPath (joinPath dir "bin") (binaryName e.goos), gd.2)
        else if fileExists gd.2 (joinPath dir (binaryName e.goos)) then
          (joinPath dir (binaryName e.goos), gd.2)
        else
          lookPathStep e gd.2
      | none => lookPathStep e gd.2

/-- The six candidate checks of the Binary Locator, in priority order:
entry `k` is `some path` when the rank-`k` candidate exists (for ranks 1-5,
the candidate path passes `fileExists`; for rank 6, `exec.LookPath`
succeeds), `none` when that rank misses. -/
def candidateChecks (e : LocatorEnv) (fs : FS) : List (Option String) :=
  [ if e.customPath != "" && fileExists fs e.customPath then
      some e.customPath
    else none,
    if e.workspaceDir != "" &&
        fileExists fs (joinPath (joinPath e.workspaceDir "bin") (binaryName e.goos)) then
      some (joinPath (joinPath e.workspaceDir "bin") (binaryName e.goos))
    else none,
    if fileExists fs (joinPath (joinPath (getExtensionDataDir e fs).1 "bin") (binaryName e.goos)) then
      some (joinPath (joinPath (getExtensionDataDir e fs).1 "bin") (binaryName e.goos))
    else none,
    match e.execPath with
    | some execPath =>
      if fileExists fs (joinPath (joinPath (filepathDir execPath) "bin") (binaryName e.goos)) then
        some (joinPath (joinPath (filepathDir execPath) "bin") (binaryName e.goos))
      else none
    | none => none,
    match e.execPath with
    | some execPath =>
      if fileExists fs (joinPath (filepathDir execPath) (binaryName e.goos)) then
        some (joinPath (filepathDir execPath) (binaryName e.goos))
      else none
    | none => none,
    e.lookPath ]

/-! ### Release Resolver (main.go:243-357) -/

/-- One downloadable asset of the release listing (main.go:274-280). -/
structure Asset where
  name : String
  browserDownloadURL : String
deriving DecidableEq, Repr

/-- `releaseAPIURL` (main.go:22). -/
def releaseAPIURL : String :=
  "https://api.github.com/repos/github/github-mcp-server/releases/latest"

/-- Which of the four matching heuristics selected the asset. -/
inductive MatchRule
  | osArch
  | macAlt
  | archAlt
  | osOnly
deriving DecidableEq, Repr

/-- Heuristic (a), main.go:296-303: the lowercased asset name contains both
the OS identifier and the architecture identifier. -/
def matchOSArch (goos goarch : String) (a : Asset) : Bool :=
  strContains (toLowerStr a.name) (toLowerStr goos) &&
    strContains (toLowerStr a.name) (toLowerStr goarch)

/-- The macOS name variants tried by heuristic (b), main.go:308. -/
def macVariants : List String := ["mac", "macos", "osx"]

/-- Heuristic (b) per variant, main.go:311-315: name contains the variant and
one of the architecture identifier, `"x86_64"`, `"amd64"`. -/
def matchMacVariant (goarch variant : String) (a : Asset) : Bool :=
  strContains (toLowerStr a.name) variant &&
    (strContains (toLowerStr a.name) goarch ||
      strContains (toLowerStr a.name) "x86_64" ||
      strContains (toLowerStr a.name) "amd64")

/-- Heuristic (b), main.go:306-321: on darwin only, try each variant over the
whole asset list (variant-major order, as the nested loops do). -/
def macAltSearch (goos goarch : String) (assets : List Asset) : Option Asset :=
  if goos == "darwin" then
    macVariants.findSome? (fun variant => assets.find? (matchMacVariant goarch variant))
  else none

/-- Heuristic (c), main.go:327-333: name contains the OS identifier and
`"x86_64"`. -/
def matchArchAlt (goos : String) (a : Asset) : Bool :=
  strContains (toLowerStr a.name) (toLowerStr goos) && strContains (toLowerStr a.name) "x86_64"

/-- Heuristic (c), main.go:324-334: only tried when the architecture is
amd64. -/
def archAltSearch (goos goarch : String) (assets : List Asset) : Option Asset :=
  if goarch == "amd64" then assets.find? (matchArchAlt goos) else none

/-- Heuristic (d), main.go:339-344: name contains the OS identifier and none
of `".sha"`, `".md5"`, `"src"`, `"source"`. -/
def matchOSOnly (goos : String) (a : Asset) : Bool :=
  strContains (toLowerStr a.name) (toLowerStr goos) &&
    !strContains (toLowerStr a.name) ".sha" &&
    !strContains (toLowerStr a.name) ".md5" &&
    !strContains (toLowerStr a.name) "src" &&
    !strContains (toLowerStr a.name) "source"

/-- The asset-selection portion of `getLatestReleaseAssetURL`
(main.go:292-356): the four heuristics tried in order, stopping at the first
match; the result also records which rule fired.  When nothing matches, the
darwin/amd64 pair gets the build-from-source suggestion (main.go:351-354). -/
def selectReleaseAsset (goos goarch : String) (assets : List Asset) :
    Except String (MatchRule × String) :=
  match assets.find? (matchOSArch goos goarch) with
  | some a => .ok (.osArch, a.browserDownloadURL)
  | none =>
  match macAltSearch goos goarch assets with
  | some a => .ok (.macAlt, a.browserDownloadURL)
  | none =>
  match archAltSearch goos goarch assets with
  | some a => .ok (.archAlt, a.browserDownloadURL)
  | none =>
  match assets.find? (matchOSOnly goos) with
  | some a => .ok (.osOnly, a.browserDownloadURL)
  | none =>
    if goos == "darwin" && goarch == "amd64" then
      .error ("no suitable binary found for " ++ goos ++ "/" ++ goarch ++
        ". Consider building from source: go build -o bin/github-mcp-server ./cmd/github-mcp-server")
    else
      .error ("no suitable binary found for " ++ goos ++ "/" ++ goarch)

/-! ### Archive Extractor (main.go:220-238, 359-438) -/

/-- One entry of a zip archive.  Go's `archive/zip` marks directory entries
with a trailing `/` in the name, which is what `extractFromZip` tests. -/
structure ZipEntry where
  name : String
  content : List Nat
deriving DecidableEq, Repr

/-- `extractFromZip`'s entry test (main.go:370-371): name contains
`"github-mcp-server"` and is not a directory entry. -/
def zipBinMatch (f : ZipEntry) : Bool :=
  strContains f.name "github-mcp-server" && !strHasSuffix f.name "/"

/-- `extractFromZip` (main.go:359-396) over a decoded archive: write the
first matching entry's content to `targetPath`, or fail with the archive
error.  The returned filesystem is the state after the call. -/
def extractFromZip (entries : List ZipEntry) (targetPath : String) (fs : FS) :
    Except String Unit × FS :=
  match entries.find? zipBinMatch with
  | some binaryFile => (.ok (), fs.writeFile targetPath binaryFile.content)
  | none => (.error "binary not found in zip", fs)

/-- Tar entry type flag (the code only distinguishes `tar.TypeReg`). -/
inductive TarTypeflag
  | reg
  | dir
  | other
deriving DecidableEq, Repr

/-- One entry of a tar archive. -/
structure TarEntry where
  name : String
  typeflag : TarTypeflag
  content : List Nat
deriving DecidableEq, Repr

/-- `extractFromTarGz`'s entry test (main.go:424-425): name contains
`"github-mcp-server"` and the entry is a regular file. -/
def tarBinMatch (h : TarEntry) : Bool :=
  strContains h.name "github-mcp-server" && h.typeflag == .reg

/-- `extractFromTarGz` (main.go:398-438) over a decoded archive: scan entries
in order, create `targetPath` from the first matching one; if none matches,
fail with "binary not found in tar.gz".  `os.Create` runs only after a match
is found, so on the error path the filesystem is untouched. -/
def extractFromTarGz (entries : List TarEntry) (targetPath : String) (fs : FS) :
    Except String Unit × FS :=
  match entries.find? tarBinMatch with
  | some header => (.ok (), fs.writeFile targetPath header.content)
  | none => (.error "binary not found in tar.gz", fs)

/-- The zip branch of `downloadServerBinary`'s install step
(main.go:220-238): extract into the target path, then `os.Chmod 0755`. -/
def installZipAsset (entries : List ZipEntry) (targetPath : String) (fs : FS) :
    Except String Unit × FS :=
  match extractFromZip entries targetPath fs with
  | (.ok _, fs1) => (.ok (), fs1.chmod targetPath 0o755)
  | (.error e, fs1) => (.error e, fs1)

/-! ### Session Launcher (main.go:25-84) with external collaborators as
oracles and externally visible actions as an event trace -/

/-- The HTTP request `getLatestReleaseAssetURL` builds (main.go:246-257):
URL, `User-Agent` header, and optional `Authorization` header. -/
structure ReleaseRequest where
  url : String
  userAgent : String
  authHeader : Option String
deriving DecidableEq, Repr

/-- What the release-listing endpoint answers: a transport error, a non-200
status with its body, a 200 whose JSON fails to decode, or a decoded release
(its assets). -/
inductive FetchOutcome
  | transportError (msg : String)
  | httpError (code : Nat) (body : String)
  | parseError
  | release (assets : List Asset)
deriving Repr

/-- Externally visible action of one launcher run. -/
inductive Event
  | credentialInvoked
  | releaseRequested (req : ReleaseRequest)
  | helperSpawned (path : String) (args : List String) (exitCode : Nat)
deriving DecidableEq, Repr

/-- The inputs of one launcher invocation: command-line arguments after the
program name, and the behavior of the external collaborators.  `tokenResult`
is what one run of `gh auth token` yields (the same within a process);
`fetch` is the release endpoint; `installOutcome url` abstracts the
download/extract/chmod steps of `downloadServerBinary` after URL resolution
(main.go:185-240, which never invokes the credential tool); `helperRun`
gives the helper's exit code for a path and argument list. -/
structure World where
  version : String
  goos : String
  goarch : String
  args : List String
  tokenResult : Except String String
  locEnv : LocatorEnv
  fs : FS
  fetch : ReleaseRequest → FetchOutcome
  installOutcome : String → Except String String
  helperRun : String → List String → Nat

/-- `getGitHubToken` (main.go:86-105): one subprocess invocation of the
credential tool, recorded as an event. -/
def getGitHubTokenM (w : World) : Except String String × List Event :=
  (w.tokenResult, [Event.credentialInvoked])

/-- The request-building step of `getLatestReleaseAssetURL`
(main.go:246-257).  `token, _ := getGitHubToken()` discards the error, so a
failed token fetch leaves `token = ""` and no `Authorization` header. -/
def buildReleaseRequest (version : String) (tokenRes : Except String String) :
    ReleaseRequest :=
  let token := match tokenRes with | .ok t => t | .error _ => ""
  { url := releaseAPIURL,
    userAgent := "gh-github-mcp-server/" ++ version,
    authHeader := if token != "" then some ("token " ++ token) else none }

/-- The response-processing steps of `getLatestReleaseAssetURL`
(main.go:259-356): transport errors, non-200 statuses and JSON decode
failures are terminal; otherwise the selection heuristics run. -/
def processFetch (goos goarch : String) (o : FetchOutcome) : Except String String :=
  match o with
  | .transportError msg => .error ("failed to get latest release info: " ++ msg)
  | .httpError code body =>
    .error ("failed to get latest release info: HTTP " ++ toString code ++ " - " ++ body)
  | .parseError => .error "failed to parse release info"
  | .release assets => (selectReleaseAsset goos goarch assets).map (fun r => r.2)

/-- `getLatestReleaseAssetURL` (main.go:243-357): invoke the credential tool
(best-effort), build the request, issue it, process the response. -/
def getLatestReleaseAssetURLM (w : World) : Except String String × List Event :=
  let tk := getGitHubTokenM w
  let req := buildReleaseRequest w.version tk.1
  (processFetch w.goos w.goarch (w.fetch req), tk.2 ++ [Event.releaseRequested req])

/-- `downloadServerBinary` (main.go:177-241): resolve the asset URL, then
perform the download/extract/chmod steps (abstracted by `installOutcome`,
which involves no further credential use). -/
def downloadServerBinaryM (w : World) : Except String String × List Event :=
  let r := getLatestReleaseAssetURLM w
  match r.1 with
  | .error e => (.error e, r.2)
  | .ok url => (w.installOutcome url, r.2)

/-- `ensureServerBinary` (main.go:107-124): the Locator's fast path, else the
download path. -/
def ensureServerBinaryM (w : World) : Except String String × List Event :=
  if (findServerBinary w.locEnv w.fs).1 != "" then
    (.ok (findServerBinary w.locEnv w.fs).1, [])
  else
    downloadServerBinaryM w

/-- The result of one launcher run: the process exit code and the trace of
externally visible actions. -/
structure MainOutcome where
  exitCode : Nat
  events : List Event
deriving DecidableEq, Repr

/-- `main` (main.go:25-84).  `args` is `os.Args[1:]`.  The spawned helper's
argument list is `["stdio"] ++ os.Args[2:]` (main.go:54, 60-62); `cmd.Run`
returns an error exactly when the helper exits nonzero, and any such error
makes the launcher call `os.Exit(1)` (main.go:65-68). -/
def runMain (w : World) : MainOutcome :=
  match w.args with
  | [] => ⟨0, []⟩
  | arg1 :: rest =>
    if arg1 == "-v" || arg1 == "--version" then ⟨0, []⟩
    else if arg1 == "stdio" then
      let tk := getGitHubTokenM w
      match tk.1 with
      | .error _ => ⟨1, tk.2⟩
      | .ok _ =>
        let es := ensureServerBinaryM w
        match es.1 with
        | .error _ => ⟨1, tk.2 ++ es.2⟩
        | .ok serverPath =>
          let helperArgs := "stdio" :: rest
          let code := w.helperRun serverPath helperArgs
          ⟨if code == 0 then 0 else 1,
            tk.2 ++ es.2 ++ [Event.helperSpawned serverPath helperArgs code]⟩
    else ⟨0, []⟩

/-- Whether an event is an invocation of the credential tool. -/
def isCredentialInvoked : Event → Bool
  | .credentialInvoked => true
  | _ => false

/-- Number of credential-tool invocations in a trace. -/
def credCount (events : List Event) : Nat :=
  events.countP isCredentialInvoked

/-! ### Concrete scenarios used by counterexamples and witnesses -/

/-- A run in which the helper binary is found via the override variable and
exits with status 2. -/
def exitWorld : World :=
  { version := "dev", goos := "linux", goarch := "amd64",
    args := ["stdio"],
    tokenResult := .ok "tok",
    locEnv := ⟨"/opt/github-mcp-server", "", "", none, none, none, "linux"⟩,
    fs := ⟨[("/opt/github-mcp-server", ⟨[0], 0o755⟩)], []⟩,
    fetch := fun _ => .transportError "unreachable",
    installOutcome := fun _ => .error "unreachable",
    helperRun := fun _ _ => 2 }

/-- A run in which no binary is installed, so the download path is taken and
the release-listing request fails at the transport level. -/
def downloadWorld : World :=
  { version := "dev", goos := "linux", goarch := "amd64",
    args := ["stdio"],
    tokenResult := .ok "tok",
    locEnv := ⟨"", "", "/xdg", none, none, none, "linux"⟩,
    fs := ⟨[], []⟩,
    fetch := fun _ => .transportError "connection refused",
    installOutcome := fun _ => .error "unreachable",
    helperRun := fun _ _ => 0 }

/-- A run in which `gh auth token` fails. -/
def noTokenWorld : World :=
  { version := "dev", goos := "linux", goarch := "amd64",
    args := ["stdio"],
    tokenResult := .error "gh not logged in",
    locEnv := ⟨"", "", "/xdg", none, none, none, "linux"⟩,
    fs := ⟨[], []⟩,
    fetch := fun _ => .release [⟨"server-linux-amd64.tar.gz", "u"⟩],
    installOutcome := fun _ => .ok "/xdg/gh-github-mcp-server/bin/github-mcp-server",
    helperRun := fun _ _ => 0 }

/-- A locator environment with `XDG_DATA_HOME=/xdg` and nothing installed. -/
def mkdirEnv : LocatorEnv := ⟨"", "", "/xdg", none, none, none, "linux"⟩

/-- An empty filesystem. -/
def emptyFS : FS := ⟨[], []⟩

/-- A locator environment whose workspace variable points at `/ws`. -/
def wsEnv : LocatorEnv := ⟨"", "/ws", "/xdg", none, none, none, "linux"⟩

/-- A filesystem holding only the workspace-installed helper binary. -/
def wsFS : FS := ⟨[("/ws/bin/github-mcp-server", ⟨[1], 0o755⟩)], []⟩

/-- A locator environment whose override variable names a missing path but
whose `PATH` lookup succeeds. -/
def ovEnvBad : LocatorEnv :=
  ⟨"/missing/github-mcp-server", "", "", none, none,
    some "/usr/local/bin/github-mcp-server", "linux"⟩

/-- A locator environment whose override variable names an existing file. -/
def ovEnvGood : LocatorEnv :=
  ⟨"/opt/github-mcp-server", "", "", none, none, none, "linux"⟩

/-- A filesystem holding only the override-named helper binary. -/
def ovGoodFS : FS := ⟨[("/opt/github-mcp-server", ⟨[2], 0o755⟩)], []⟩

/-! ### Helper lemmas -/

theorem files_mkdirAll (fs : FS) (d : String) : (fs.mkdirAll d).files = fs.files := by
  unfold FS.mkdirAll
  split <;> rfl

theorem fileExists_gdd (e : LocatorEnv) (fs : FS) (p : String) :
    fileExists (getExtensionDataDir e fs).2 p = fileExists fs p := by
  unfold getExtensionDataDir fileExists
  split
  · simp [files_mkdirAll]
  · split
    · rfl
    · simp [files_mkdirAll]

theorem findServerBinary_eq_findSome (e : LocatorEnv) (fs : FS) :
    (findServerBinary e fs).1 = ((candidateChecks e fs).findSome? id).getD "" := by
  unfold findServerBinary candidateChecks lookPathStep
  simp only [fileExists_gdd, List.findSome?, id]
  repeat' split
  all_goals simp_all

theorem findServerBinary_fs_cases (e : LocatorEnv) (fs : FS) :
    (findServerBinary e fs).2 = fs ∨
    (findServerBinary e fs).2 = (getExtensionDataDir e fs).2 := by
  unfold findServerBinary lookPathStep
  simp only [fileExists_gdd]
  repeat' split
  all_goals simp [apply_ite]

theorem mkdirAll_dirs (fs : FS) (d : String) :
    (fs.mkdirAll d).dirs = fs.dirs ∨ (fs.mkdirAll d).dirs = d :: fs.dirs := by
  unfold FS.mkdirAll
  split
  · exact Or.inl rfl
  · exact Or.inr rfl

theorem getExtensionDataDir_cases (e : LocatorEnv) (fs : FS) :
    (getExtensionDataDir e fs).2 = fs ∨
    (getExtensionDataDir e fs).2 = fs.mkdirAll (getExtensionDataDir e fs).1 := by
  unfold getExtensionDataDir
  repeat' split
  all_goals simp

theorem findSome_first_hit {α : Type} (l : List (Option α)) (k : Nat) (p : α)
    (hk : l.get? k = some (some p))
    (hlt : ∀ j, j < k → l.get? j = some none) :
    l.findSome? id = some p := by
  induction l generalizing k with
  | nil => simp at hk
  | cons c t ih =>
    cases k with
    | zero =>
      simp at hk
      subst hk
      simp [List.findSome?]
    | succ k =>
      have h0 : c = none := by
        have := hlt 0 (Nat.succ_pos k)
        simpa using this
      subst h0
      simp [List.findSome?]
      exact ih k (by simpa using hk) (fun j hj => by
        have := hlt (j + 1) (Nat.succ_lt_succ hj)
        simpa using this)

/-! ### Claim theorems -/

/-- C1 counterexample: in `exitWorld` the spawned helper exits with status 2,
yet the launcher's own exit code is 1, not 2 — the exit status is not
propagated verbatim. -/
theorem stdio_exit_not_propagated :
    exitWorld.helperRun "/opt/github-mcp-server" ["stdio"] = 2 ∧
    (runMain exitWorld).events =
      [Event.credentialInvoked,
        Event.helperSpawned "/opt/github-mcp-server" ["stdio"] 2] ∧
    (runMain exitWorld).exitCode = 1 ∧ (runMain exitWorld).exitCode ≠ 2 :=
  ⟨rfl, rfl, rfl, by decide⟩

/-- C1 (amended): when invoked as `<launcher> stdio [args...]` with a
resolvable helper binary, the launcher exits 0 when the helper exits 0 and
exits 1 when the helper exits nonzero (`cmd.Run`'s error is mapped to
`os.Exit(1)`, main.go:65-68); the helper's exact nonzero status is not
propagated. -/
theorem stdio_exit_code_collapses_to_one (w : World) (rest : List String)
    (t p : String) (c : Nat)
    (ha : w.args = "stdio" :: rest) (ht : w.tokenResult = Except.ok t)
    (hp : (findServerBinary w.locEnv w.fs).1 = p) (hne : p ≠ "")
    (hc : w.helperRun p ("stdio" :: rest) = c) :
    (runMain w).exitCode = if c = 0 then 0 else 1 := by
  simp [runMain, ha, ht, getGitHubTokenM, ensureServerBinaryM, hp, hne, hc]

/-- C1 witness: the amended theorem applied to `exitWorld` (helper exit 2,
launcher exit 1). -/
theorem stdio_exit_code_collapses_to_one_witness :
    (runMain exitWorld).exitCode = if 2 = 0 then 0 else 1 :=
  stdio_exit_code_collapses_to_one exitWorld [] "tok" "/opt/github-mcp-server" 2
    rfl rfl rfl (by decide) rfl

/-- C2 counterexample: in `downloadWorld` the run takes the download path and
the credential tool is invoked twice — `main` calls `getGitHubToken` and
`getLatestReleaseAssetURL` calls it again — contradicting "at most once per
process invocation". -/
theorem credential_invoked_twice_on_download_path :
    credCount (runMain downloadWorld).events = 2 ∧
    ¬ credCount (runMain downloadWorld).events ≤ 1 :=
  ⟨rfl, by decide⟩

/-- C2 (amended): in a `stdio` run whose token fetch succeeds, the credential
tool is invoked exactly once when the Binary Locator finds an installed
binary, and exactly twice when the download path is taken (once in `main`,
once more inside the Release Resolver). -/
theorem credential_invocation_count (w : World) (rest : List String) (t : String)
    (ha : w.args = "stdio" :: rest) (ht : w.tokenResult = Except.ok t) :
    credCount (runMain w).events =
      if (findServerBinary w.locEnv w.fs).1 = "" then 2 else 1 := by
  by_cases hb : (findServerBinary w.locEnv w.fs).1 = ""
  · have hbne : ((findServerBinary w.locEnv w.fs).1 != "") = false := by simp [hb]
    cases hpf : processFetch w.goos w.goarch (w.fetch (buildReleaseRequest w.version (Except.ok t))) with
    | error e =>
      simp [runMain, ha, ht, getGitHubTokenM, ensureServerBinaryM, downloadServerBinaryM,
        getLatestReleaseAssetURLM, hb, hbne, hpf, credCount, isCredentialInvoked,
        List.countP_cons]
    | ok url =>
      cases hio : w.installOutcome url with
      | error e =>
        simp [runMain, ha, ht, getGitHubTokenM, ensureServerBinaryM, downloadServerBinaryM,
          getLatestReleaseAssetURLM, hb, hbne, hpf, hio, credCount, isCredentialInvoked,
          List.countP_cons]
      | ok p =>
        simp [runMain, ha, ht, getGitHubTokenM, ensureServerBinaryM, downloadServerBinaryM,
          getLatestReleaseAssetURLM, hb, hbne, hpf, hio, credCount, isCredentialInvoked,
          List.countP_cons]
  · have hb2 : ((findServerBinary w.locEnv w.fs).1 != "") = true := by
      simpa using hb
    simp [runMain, ha, ht, getGitHubTokenM, ensureServerBinaryM, hb, hb2,
      credCount, isCredentialInvoked, List.countP_cons]

/-- C2 witness: the amended theorem applied to `downloadWorld` (download
path, two invocations). -/
theorem credential_invocation_count_witness :
    credCount (runMain downloadWorld).events =
      if (findServerBinary downloadWorld.locEnv downloadWorld.fs).1 = "" then 2 else 1 :=
  credential_invocation_count downloadWorld [] "tok" rfl rfl

/-- C3 counterexample: on darwin/arm64 with a release listing whose only
asset is `server-macos.zip`, no heuristic matches (the macOS-alternative rule
also requires the architecture identifier, `"x86_64"`, or `"amd64"` in the
name) and the Resolver returns an error, not the asset's URL. -/
theorem macos_asset_without_arch_rejected :
    selectReleaseAsset "darwin" "arm64" [⟨"server-macos.zip", "u"⟩] =
      Except.error "no suitable binary found for darwin/arm64" := by
  rfl

/-- C3 (amended): on darwin/arm64 the macOS-alternative rule selects an asset
only when its name also contains the architecture identifier, `"x86_64"`, or
`"amd64"`; a listing with only `server-macos.zip` therefore resolves to an
error, while one with `server-macos-arm64.zip` is selected by that rule. -/
theorem mac_alternative_requires_arch :
    selectReleaseAsset "darwin" "arm64" [⟨"server-macos.zip", "u"⟩] =
      Except.error "no suitable binary found for darwin/arm64" ∧
    selectReleaseAsset "darwin" "arm64" [⟨"server-macos-arm64.zip", "u"⟩] =
      Except.ok (MatchRule.macAlt, "u") :=
  ⟨rfl, rfl⟩

/-- C4 counterexample: running the Locator in `mkdirEnv` over an empty
filesystem creates the extension data directory (`getExtensionDataDir`'s
`os.MkdirAll`, main.go:462), so `locate()` is not free of side effects. -/
theorem locator_creates_data_directory :
    ((findServerBinary mkdirEnv emptyFS).2).dirs = ["/xdg/gh-github-mcp-server"] ∧
    emptyFS.dirs = [] ∧
    (findServerBinary mkdirEnv emptyFS).2 ≠ emptyFS := by
  refine ⟨rfl, rfl, by decide⟩

/-- C4 (amended): the Locator never creates or modifies files, and its only
possible filesystem effect is creating the extension data directory: after
`findServerBinary` the directory list is either unchanged or extended by
exactly the data directory. -/
theorem locator_filesystem_effect (e : LocatorEnv) (fs : FS) :
    ((findServerBinary e fs).2).files = fs.files ∧
    (((findServerBinary e fs).2).dirs = fs.dirs ∨
      ((findServerBinary e fs).2).dirs = (getExtensionDataDir e fs).1 :: fs.dirs) := by
  rcases findServerBinary_fs_cases e fs with h | h <;> rw [h]
  · exact ⟨rfl, Or.inl rfl⟩
  · rcases getExtensionDataDir_cases e fs with h2 | h2 <;> rw [h2]
    · exact ⟨rfl, Or.inl rfl⟩
    · exact ⟨files_mkdirAll fs (getExtensionDataDir e fs).1,
        mkdirAll_dirs fs (getExtensionDataDir e fs).1⟩

/-- C5: the Release Resolver applies its heuristics in the exact order
OS+arch, macOS-alternative, OS+x86_64 (amd64 only), OS-only-excluding-
checksum/source, stopping at the first match; concretely, on linux/amd64 the
asset `server-linux-amd64.tar.gz` is selected by the OS+arch rule. -/
theorem resolver_fallback_order :
    (∀ goos goarch assets a, assets.find? (matchOSArch goos goarch) = some a →
        selectReleaseAsset goos goarch assets = .ok (.osArch, a.browserDownloadURL)) ∧
    (∀ goos goarch assets a, assets.find? (matchOSArch goos goarch) = none →
        macAltSearch goos goarch assets = some a →
        selectReleaseAsset goos goarch assets = .ok (.macAlt, a.browserDownloadURL)) ∧
    (∀ goos goarch assets a, assets.find? (matchOSArch goos goarch) = none →
        macAltSearch goos goarch assets = none →
        archAltSearch goos goarch assets = some a →
        selectReleaseAsset goos goarch assets = .ok (.archAlt, a.browserDownloadURL)) ∧
    (∀ goos goarch assets a, assets.find? (matchOSArch goos goarch) = none →
        macAltSearch goos goarch assets = none →
        archAltSearch goos goarch assets = none →
        assets.find? (matchOSOnly goos) = some a →
        selectReleaseAsset goos goarch assets = .ok (.osOnly, a.browserDownloadURL)) ∧
    selectReleaseAsset "linux" "amd64" [⟨"server-linux-amd64.tar.gz", "u"⟩] =
      .ok (.osArch, "u") := by
  refine ⟨?_, ?_, ?_, ?_, rfl⟩
  · intro goos goarch assets a h
    simp [selectReleaseAsset, h]
  · intro goos goarch assets a h1 h2
    simp [selectReleaseAsset, h1, h2]
  · intro goos goarch assets a h1 h2 h3
    simp [selectReleaseAsset, h1, h2, h3]
  · intro goos goarch assets a h1 h2 h3 h4
    simp [selectReleaseAsset, h1, h2, h3, h4]

/-- C5 witness: the OS+arch conjunct applied to a concrete linux/amd64
listing. -/
theorem resolver_fallback_order_witness :
    selectReleaseAsset "linux" "amd64" [Asset.mk "x-linux-amd64.zip" "w"] =
      Except.ok (MatchRule.osArch, "w") :=
  resolver_fallback_order.1 "linux" "amd64" [Asset.mk "x-linux-amd64.zip" "w"]
    (Asset.mk "x-linux-amd64.zip" "w") (by decide)

/-- C6: for every environment and filesystem state the Locator checks its six
candidates strictly in priority order: if the rank-`k` check hits and every
earlier check misses, `findServerBinary` returns exactly that candidate's
path, and if all six miss it returns `""` (NotFound) — it is a total
function and never raises an error. -/
theorem locator_priority_order (e : LocatorEnv) (fs : FS) :
    (∀ k p, (candidateChecks e fs).get? k = some (some p) →
        (∀ j, j < k → (candidateChecks e fs).get? j = some none) →
        (findServerBinary e fs).1 = p) ∧
    ((∀ c ∈ candidateChecks e fs, c = none) → (findServerBinary e fs).1 = "") := by
  constructor
  · intro k p hk hlt
    rw [findServerBinary_eq_findSome, findSome_first_hit _ k p hk hlt]
    rfl
  · intro hall
    rw [findServerBinary_eq_findSome]
    have hnone : (candidateChecks e fs).findSome? id = none := by
      rw [List.findSome?_eq_none_iff]
      intro o ho
      simp [hall o ho]
    simp [hnone]

/-- C6 witness: in `wsEnv`/`wsFS` the rank-2 (workspace) candidate exists and
rank 1 misses, and the Locator returns the workspace path. -/
theorem locator_priority_order_witness :
    (findServerBinary wsEnv wsFS).1 = "/ws/bin/github-mcp-server" :=
  (locator_priority_order wsEnv wsFS).1 1 "/ws/bin/github-mcp-server" (by decide)
    (fun j hj => by
      have hj0 : j = 0 := Nat.lt_one_iff.mp hj
      subst hj0
      decide)

/-- C7: if a `.tar.gz` archive contains no regular-file entry whose name
contains `"github-mcp-server"`, the Extractor returns the "binary not found
in tar.gz" error and the filesystem — in particular the target path — is
left exactly as it was. -/
theorem targz_no_match_error_leaves_fs (entries : List TarEntry) (target : String)
    (fs : FS) (h : entries.find? tarBinMatch = none) :
    extractFromTarGz entries target fs =
      (Except.error "binary not found in tar.gz", fs) := by
  simp [extractFromTarGz, h]

/-- C7 witness: a concrete archive with a non-matching regular file and a
directory entry named like the binary yields the error and an unchanged
(empty) filesystem. -/
theorem targz_no_match_error_leaves_fs_witness :
    extractFromTarGz
        [TarEntry.mk "README.md" .other [1], TarEntry.mk "github-mcp-server" .dir []]
        "/data/bin/github-mcp-server" (FS.mk [] []) =
      (Except.error "binary not found in tar.gz", FS.mk [] []) :=
  targz_no_match_error_leaves_fs
    [TarEntry.mk "README.md" .other [1], TarEntry.mk "github-mcp-server" .dir []]
    "/data/bin/github-mcp-server" (FS.mk [] []) (by decide)

/-- C8: a token failure is non-fatal in the Release Resolver — the request is
still issued with no `Authorization` header and the outcome is determined by
the response alone — but fatal in the Session Launcher: the run exits 1
after the single credential invocation, with no helper process spawned. -/
theorem token_failure_nonfatal_in_resolver_fatal_in_launcher :
    (∀ v e, (buildReleaseRequest v (Except.error e)).authHeader = none) ∧
    (∀ (w : World) e, w.tokenResult = Except.error e →
      getLatestReleaseAssetURLM w =
        (processFetch w.goos w.goarch (w.fetch (buildReleaseRequest w.version (Except.error e))),
         [Event.credentialInvoked,
          Event.releaseRequested (buildReleaseRequest w.version (Except.error e))])) ∧
    (∀ (w : World) rest e, w.args = "stdio" :: rest → w.tokenResult = Except.error e →
      runMain w = ⟨1, [Event.credentialInvoked]⟩) := by
  refine ⟨fun v e => rfl, ?_, ?_⟩
  · intro w e hw
    simp [getLatestReleaseAssetURLM, getGitHubTokenM, hw]
  · intro w rest e ha hw
    simp [runMain, ha, hw, getGitHubTokenM]

/-- C8 witness: the launcher conjunct applied to `noTokenWorld`, plus the
anonymous-request conjunct at concrete arguments. -/
theorem token_failure_witness :
    runMain noTokenWorld = ⟨1, [Event.credentialInvoked]⟩ ∧
    (buildReleaseRequest "dev" (Except.error "gh not logged in")).authHeader = none :=
  ⟨token_failure_nonfatal_in_resolver_fatal_in_launcher.2.2 noTokenWorld []
      "gh not logged in" rfl rfl,
   token_failure_nonfatal_in_resolver_fatal_in_launcher.1 "dev" "gh not logged in"⟩

/-- C9: for every zip archive containing a non-directory entry whose name
contains `"github-mcp-server"`, extraction succeeds and the install step
leaves at the target path a file whose bytes equal the selected entry's
content with permissions `0o755`. -/
theorem zip_roundtrip_install (entries : List ZipEntry) (target : String) (fs : FS)
    (f : ZipEntry) (h : entries.find? zipBinMatch = some f) :
    (installZipAsset entries target fs).1 = Except.ok () ∧
    ((installZipAsset entries target fs).2).files.lookup target =
      some ⟨f.content, 0o755⟩ := by
  simp [installZipAsset, extractFromZip, h, FS.writeFile, FS.chmod, List.lookup]

/-- C9 witness: a concrete zip containing `bin/github-mcp-server` with bytes
`[7, 8, 9]` installs a target file with those bytes and permission `0o755`. -/
theorem zip_roundtrip_install_witness :
    (installZipAsset [ZipEntry.mk "bin/github-mcp-server" [7, 8, 9]]
        "/data/bin/github-mcp-server" (FS.mk [] [])).1 = Except.ok () ∧
    ((installZipAsset [ZipEntry.mk "bin/github-mcp-server" [7, 8, 9]]
        "/data/bin/github-mcp-server" (FS.mk [] [])).2).files.lookup
        "/data/bin/github-mcp-server" = some (FileData.mk [7, 8, 9] 0o755) :=
  zip_roundtrip_install [ZipEntry.mk "bin/github-mcp-server" [7, 8, 9]]
    "/data/bin/github-mcp-server" (FS.mk [] [])
    (ZipEntry.mk "bin/github-mcp-server" [7, 8, 9]) (by decide)

/-- C10: when `GITHUB_MCP_SERVER_PATH` names a path that is not an existing
regular file, the Locator silently falls through to the lower-priority
candidates (the result is the same as with the override unset); the override
is honored exactly when it names an existing regular file. -/
theorem override_env_fallthrough (e : LocatorEnv) (fs : FS) :
    (fileExists fs e.customPath = false →
      (findServerBinary e fs).1 = (findServerBinary { e with customPath := "" } fs).1) ∧
    (e.customPath ≠ "" → fileExists fs e.customPath = true →
      (findServerBinary e fs).1 = e.customPath) := by
  constructor
  · intro h
    simp [findServerBinary, h, getExtensionDataDir, lookPathStep]
  · intro h1 h2
    simp [findServerBinary, h1, h2]

/-- C10 witness: with the override naming a missing path the Locator returns
the `PATH` result, the same as with the override unset; with the override
naming an existing file it returns the override path. -/
theorem override_env_fallthrough_witness :
    (findServerBinary ovEnvBad emptyFS).1 =
      (findServerBinary { ovEnvBad with customPath := "" } emptyFS).1 ∧
    (findServerBinary ovEnvGood ovGoodFS).1 = "/opt/github-mcp-server" :=
  ⟨(override_env_fallthrough ovEnvBad emptyFS).1 (by decide),
   (override_env_fallthrough ovEnvGood ovGoodFS).2 (by decide) (by decide)⟩
